import Mathlib

/-!
Verification of the process monitor (windows FFI build and plugin variant).

The embedding follows src/windows/ffi_build/process_monitor_api.cpp (namespace-free
definitions below, mirroring the C file) and src/windows/process_monitor_api.cpp
(namespace PMApi).  Machine state is the set of file-level globals; each exported
C function becomes a Lean function from state to state plus its return value.
External fallible calls (CreateEvent, thread spawn, WaitForSingleObject) are
modelled by oracle parameters giving their outcome.
-/

set_option maxRecDepth 4096

/-- One ProcessEventData record (process_monitor_api.h lines 19-24).
The process_name field is a char[512] buffer; we model its contents as the
list of UTF-8 bytes actually stored (at most 511, the capacity minus the
terminator).  event_type is char[32] holding "start" or "stop". -/
structure ProcessEventData where
  event_type : String
  process_name : List Nat
  process_id : Int
  timestamp_ms : Int
deriving Repr, DecidableEq

/-- A raw WMI notification as far as Indicate reads it: the event class name
(from the __CLASS property), the process name already converted to UTF-8 bytes
(WideCharToMultiByte result), the ProcessId property (uint32), and the
wall-clock milliseconds observed at delivery time.  Records model instances
whose TargetInstance property was retrieved successfully. -/
structure RawRecord where
  className : String
  name_bytes : List Nat
  pid : Nat
  now_ms : Int
deriving Repr, DecidableEq

/-- Cast of a uint32 value to a C int (the line event_data.process_id = (int)processId). -/
def toInt32 (n : Nat) : Int :=
  let m : Nat := n % 2 ^ 32
  if m < 2 ^ 31 then (m : Int) else (m : Int) - 2 ^ 32

/-- Construction of the ProcessEventData record inside FFIProcessEventSink::Indicate
(ffi_build/process_monitor_api.cpp lines 106-119): strncpy_s with _TRUNCATE keeps
at most 511 name bytes, the event type is "start" exactly when the raw class is
__InstanceCreationEvent, otherwise "stop". -/
def mkEvent (r : RawRecord) : ProcessEventData :=
  { event_type := if r.className = "__InstanceCreationEvent" then "start" else "stop"
  , process_name := r.name_bytes.take 511
  , process_id := toInt32 r.pid
  , timestamp_ms := r.now_ms }

/-- The overflow loop in Indicate (lines 127-129): while the queue holds more
than 1000 records, pop the front (oldest) record.  The list head is the queue
front. -/
def trimQueue : List ProcessEventData → List ProcessEventData
  | [] => []
  | e :: rest => if (e :: rest).length > 1000 then trimQueue rest else e :: rest

/-- The enqueue path of Indicate (lines 122-130): push to the back, then trim. -/
def enqueueEvent (q : List ProcessEventData) (e : ProcessEventData) : List ProcessEventData :=
  trimQueue (q ++ [e])

/-- The suffix of a list keeping its last n elements; proof-side description of
trimQueue. -/
def keepLast (n : Nat) (l : List ProcessEventData) : List ProcessEventData :=
  (l.reverse.take n).reverse

/-- The consumer callback (ProcessEventCallback): receives the event record and
the opaque user-data pointer (modelled as a Nat, 0 standing for null); the
Except result records whether the C callback threw. -/
def Callback : Type := ProcessEventData → Nat → Except Unit Unit

/-- True when the callback throws at this invocation. -/
def raised (c : Callback) (ev : ProcessEventData) (ud : Nat) : Bool :=
  match c ev ud with
  | .ok _ => false
  | .error _ => true

/-- The file-level globals of ffi_build/process_monitor_api.cpp (lines 14-31
and the static guard at line 477): last-error text, running flag, monitor
thread joinability, the event queue (head = front), the wake-signal handle
(event_available = handle exists, event_signaled = its auto-reset state),
the COM flag, the registered callback and user data, the sink pointer, and
the cleanup guard flag. -/
structure MonitorState where
  last_error : String
  monitoring : Bool
  thread_joinable : Bool
  event_queue : List ProcessEventData
  event_available : Bool
  event_signaled : Bool
  com_initialized : Bool
  event_callback : Option Callback
  callback_user_data : Nat
  sink : Bool
  cleanup_done : Bool

/-- The state at process load: every global at its initializer. -/
def initialState : MonitorState :=
  { last_error := ""
  , monitoring := false
  , thread_joinable := false
  , event_queue := []
  , event_available := false
  , event_signaled := false
  , com_initialized := false
  , event_callback := none
  , callback_user_data := 0
  , sink := false
  , cleanup_done := false }

/-- initialize_process_monitor (lines 308-312): clears the last error, returns true. -/
def init_process_monitor (s : MonitorState) : MonitorState × Bool :=
  ({ s with last_error := "" }, true)

/-- start_monitoring (lines 314-357).  Oracles: create_ok is the CreateEvent
outcome (consulted only when no handle exists yet), spawn_ok the std::thread
constructor outcome.  Joining the previous thread precedes the spawn. -/
def start_monitoring (create_ok spawn_ok : Bool) (s : MonitorState) : MonitorState × Bool :=
  if s.monitoring then
    ({ s with last_error := "Process monitor is already running" }, false)
  else if !s.event_available && !create_ok then
    ({ s with last_error := "Failed to create event handle" }, false)
  else
    let s1 := if s.event_available then s
              else { s with event_available := true, event_signaled := false }
    let s2 := { s1 with event_queue := [], monitoring := true, thread_joinable := false }
    if spawn_ok then ({ s2 with thread_joinable := true }, true)
    else ({ s2 with monitoring := false,
                    last_error := "Failed to start monitoring thread" }, false)

/-- start_monitoring_with_callback (lines 359-399): stores the callback pointer
and user data unconditionally (no null check in this variant), clears the queue,
raises the running flag, joins any previous thread, spawns.  On spawn failure
the callback registration and the flag are rolled back. -/
def start_monitoring_with_callback (cb : Option Callback) (ud : Nat) (spawn_ok : Bool)
    (s : MonitorState) : MonitorState × Bool :=
  if s.monitoring then
    ({ s with last_error := "Process monitor is already running" }, false)
  else
    let s1 := { s with event_callback := cb, callback_user_data := ud,
                       event_queue := [], monitoring := true, thread_joinable := false }
    if spawn_ok then ({ s1 with thread_joinable := true }, true)
    else ({ s1 with monitoring := false, event_callback := none, callback_user_data := 0,
                    last_error := "Failed to start monitoring thread" }, false)

/-- stop_monitoring (lines 401-411): clears the running flag and the callback
registration, touches nothing else, returns true. -/
def stop_monitoring (s : MonitorState) : MonitorState × Bool :=
  ({ s with monitoring := false, event_callback := none, callback_user_data := 0 }, true)

/-- get_next_event (lines 413-425).  buf_ok models the event_data out-pointer
being non-null; the middle component is what the call stores through it. -/
def get_next_event (buf_ok : Bool) (s : MonitorState) :
    MonitorState × Option ProcessEventData × Bool :=
  if !buf_ok then (s, none, false)
  else
    match s.event_queue with
    | [] => (s, none, false)
    | e :: rest => ({ s with event_queue := rest }, some e, true)

/-- is_monitoring (lines 427-430). -/
def is_monitoring (s : MonitorState) : Bool := s.monitoring

/-- get_pending_event_count (lines 432-436). -/
def get_pending_event_count (s : MonitorState) : Nat := s.event_queue.length

/-- Outcome of the WaitForSingleObject call inside wait_for_events. -/
inductive WaitResult where
  | signaled
  | timedOut
  | failed
deriving Repr, DecidableEq

/-- wait_for_events (lines 438-454): -1 when the wake handle was never created
(or a wait error), 0 on timeout, the current queue size when the signal fires
(the auto-reset wait consumes the signal). -/
def wait_for_events (res : WaitResult) (timeout_ms : Int) (s : MonitorState) :
    MonitorState × Int :=
  if s.event_available = false then (s, -1)
  else
    match res with
    | .signaled => ({ s with event_signaled := false }, (s.event_queue.length : Int))
    | .timedOut => (s, 0)
    | .failed => (s, -1)

/-- The drain loop of get_all_events (lines 465-469): pop front entries while
the queue is non-empty and fewer than max entries were copied.  Returns the
copied entries in order and the remaining queue. -/
def drainLoop : List ProcessEventData → Nat → List ProcessEventData × List ProcessEventData
  | q, 0 => ([], q)
  | [], _ + 1 => ([], [])
  | e :: rest, n + 1 =>
    let p := drainLoop rest n
    (e :: p.1, p.2)

/-- get_all_events (lines 456-472).  buf_ok models the events_array pointer
being non-null; the count is returned as a C int. -/
def get_all_events (buf_ok : Bool) (max_events : Int) (s : MonitorState) :
    MonitorState × List ProcessEventData × Int :=
  if !buf_ok || max_events ≤ 0 then (s, [], 0)
  else
    let p := drainLoop s.event_queue max_events.toNat
    ({ s with event_queue := p.2 }, p.1, (p.1.length : Int))

/-- cleanup_process_monitor (lines 474-570).  The static guard flag admits only
the first caller; that caller clears the running flag, joins or detaches the
thread, cleans and nulls the sink, empties the queue, closes the wake handle,
lowers the COM flag and clears the last error.  The callback registration is
not touched here. -/
def cleanup_process_monitor (s : MonitorState) : MonitorState :=
  if s.cleanup_done then s
  else
    { s with cleanup_done := true
           , monitoring := false
           , thread_joinable := false
           , sink := false
           , event_queue := []
           , event_available := false
           , event_signaled := false
           , com_initialized := false
           , last_error := "" }

/-- get_last_error (lines 572-575). -/
def get_last_error (s : MonitorState) : String := s.last_error

/-- One iteration of the Indicate loop (ffi_build variant, lines 74-156) for a
record whose TargetInstance was retrieved: build the event, enqueue and trim
under the lock, raise the wake signal if the handle exists, then invoke the
registered callback inside try/catch — any error it raises is swallowed, so
the state is unaffected by the callback outcome.  The log lists the callback
invocation (event, raised) when a callback is registered. -/
def ffiIndicateStep (s : MonitorState) (r : RawRecord) :
    MonitorState × List (ProcessEventData × Bool) :=
  let ev := mkEvent r
  let s1 := { s with event_queue := enqueueEvent s.event_queue ev }
  let s2 := if s1.event_available then { s1 with event_signaled := true } else s1
  match s2.event_callback with
  | some c => (s2, [(ev, raised c ev s2.callback_user_data)])
  | none => (s2, [])

/-- FFIProcessEventSink::Indicate over a batch of raw records: the loop body
runs for every record in order; callback faults never abort the loop. -/
def ffiIndicate : MonitorState → List RawRecord → MonitorState × List (ProcessEventData × Bool)
  | s, [] => (s, [])
  | s, r :: rest =>
    let p := ffiIndicateStep s r
    let q := ffiIndicate p.1 rest
    (q.1, p.2 ++ q.2)

/-- The monitor thread body, monitor_thread_function (lines 282-303), collapsed
to its state effects: on a failed sink Initialize the sink is deleted and the
running flag dropped; on a normal exit after the polling loop only the sink
pointer is nulled (the ffi_build variant leaks the object deliberately). -/
def monitor_thread_body (init_ok : Bool) (s : MonitorState) : MonitorState :=
  if init_ok then { s with sink := true } else { s with sink := false, monitoring := false }

/-- Normal exit of the monitor thread (line 302): g_event_sink = nullptr. -/
def monitor_thread_exit (s : MonitorState) : MonitorState :=
  { s with sink := false }

/-- An API-level step for trace reasoning: one call into the monitor, with the
oracle outcomes of its external calls baked into the label. -/
inductive Op where
  | opInit
  | opStartPull (create_ok spawn_ok : Bool)
  | opStartPush (cb : Option Callback) (ud : Nat) (spawn_ok : Bool)
  | opStop
  | opIndicate (rs : List RawRecord)
  | opGetNext (buf_ok : Bool)
  | opGetAll (buf_ok : Bool) (max_events : Int)
  | opWait (res : WaitResult) (timeout_ms : Int)
  | opCleanup
  | opThreadBody (init_ok : Bool)
  | opThreadExit

/-- Effect of one step on the global state (return values discarded). -/
def step (s : MonitorState) : Op → MonitorState
  | .opInit => (init_process_monitor s).1
  | .opStartPull c sp => (start_monitoring c sp s).1
  | .opStartPush cb ud sp => (start_monitoring_with_callback cb ud sp s).1
  | .opStop => (stop_monitoring s).1
  | .opIndicate rs => (ffiIndicate s rs).1
  | .opGetNext b => (get_next_event b s).1
  | .opGetAll b m => (get_all_events b m s).1
  | .opWait r t => (wait_for_events r t s).1
  | .opCleanup => cleanup_process_monitor s
  | .opThreadBody ok => monitor_thread_body ok s
  | .opThreadExit => monitor_thread_exit s

/-- Run a trace of steps from a state. -/
def run (ops : List Op) (s : MonitorState) : MonitorState :=
  ops.foldl step s

/-- True exactly on pull-mode start steps (the only ones that create the wake
handle). -/
def isStartPull : Op → Bool
  | .opStartPull _ _ => true
  | _ => false

namespace PMApi

/-- The file-level globals of src/windows/process_monitor_api.cpp (lines 14-24):
this push-only variant keeps no queue and no wake handle. -/
structure PMState where
  last_error : String
  monitoring : Bool
  thread_joinable : Bool
  callback : Option Callback
  user_data : Nat
  sink : Bool

/-- The plugin-variant state at process load. -/
def initState : PMState :=
  { last_error := ""
  , monitoring := false
  , thread_joinable := false
  , callback := none
  , user_data := 0
  , sink := false }

/-- PMApi start_monitoring (process_monitor_api.cpp lines 282-305): fails when
already running, rejects a null callback with a dedicated error, otherwise
registers the callback under the lock, raises the flag and spawns the thread. -/
def start_monitoring (cb : Option Callback) (ud : Nat) (s : PMState) : PMState × Bool :=
  if s.monitoring then
    ({ s with last_error := "Process monitor is already running" }, false)
  else
    match cb with
    | none => ({ s with last_error := "Callback function cannot be null" }, false)
    | some c =>
      ({ s with callback := some c, user_data := ud,
                monitoring := true, thread_joinable := true }, true)

/-- The loop of PMApi Indicate (lines 70-124) once a callback is registered:
the user callback is invoked bare (line 116, no try/catch), so the first
record on which it throws unwinds out of Indicate; later records of the batch
are not reached.  Returns the events for which the callback was invoked and
whether an exception escaped the delivery path. -/
def IndicateLoop (c : Callback) (ud : Nat) : List RawRecord → List ProcessEventData × Bool
  | [] => ([], false)
  | r :: rest =>
    let ev := mkEvent r
    match c ev ud with
    | .error _ => ([ev], true)
    | .ok _ =>
      let p := IndicateLoop c ud rest
      (ev :: p.1, p.2)

/-- PMApi FFIProcessEventSink::Indicate (lines 64-127): returns immediately when
no callback is registered, otherwise runs the delivery loop. -/
def Indicate (s : PMState) (rs : List RawRecord) : List ProcessEventData × Bool :=
  match s.callback with
  | none => ([], false)
  | some c => IndicateLoop c s.user_data rs

end PMApi

/-- A callback that throws on every delivery. -/
def alwaysRaise : Callback := fun _ _ => .error ()

/-- A plugin-variant session whose registered callback throws on every delivery. -/
def raisingPMState : PMApi.PMState :=
  { last_error := ""
  , monitoring := true
  , thread_joinable := true
  , callback := some alwaysRaise
  , user_data := 0
  , sink := false }

/-- UTF-8 bytes of the name notepad.exe. -/
def notepadBytes : List Nat := [110, 111, 116, 101, 112, 97, 100, 46, 101, 120, 101]

/-- Raw creation record for (notepad.exe, pid 4321). -/
def recNotepadStart : RawRecord :=
  { className := "__InstanceCreationEvent", name_bytes := notepadBytes,
    pid := 4321, now_ms := 1000 }

/-- Raw deletion record for (notepad.exe, pid 4321). -/
def recNotepadStop : RawRecord :=
  { className := "__InstanceDeletionEvent", name_bytes := notepadBytes,
    pid := 4321, now_ms := 1005 }

/-- A raw record whose 600-byte name overflows the 512-byte envelope. -/
def recLongName : RawRecord :=
  { className := "__InstanceCreationEvent", name_bytes := List.replicate 600 97,
    pid := 7, now_ms := 42 }

/-- 1200 distinct event records, for exercising the overflow policy. -/
def sampleEvents : List ProcessEventData :=
  (List.range 1200).map (fun (i : Nat) =>
    { event_type := "start", process_name := [], process_id := (i : Int), timestamp_ms := 0 })

theorem trimQueue_eq_keepLast (q : List ProcessEventData) : trimQueue q = keepLast 1000 q := by
  induction q with
  | nil => rfl
  | cons e rest ih =>
    rw [trimQueue]
    by_cases h : (e :: rest).length > 1000
    · simp only [h, if_true]
      rw [ih]
      unfold keepLast
      have hlen : 1000 ≤ rest.reverse.length := by
        simp only [List.length_reverse]
        simp only [List.length_cons] at h
        omega
      rw [List.reverse_cons, List.take_append_of_le_length hlen]
    · simp only [h, if_false]
      unfold keepLast
      rw [List.take_of_length_le, List.reverse_reverse]
      simp only [List.length_reverse]
      simp only [List.length_cons] at h ⊢
      omega

theorem trimQueue_eq_drop (q : List ProcessEventData) :
    trimQueue q = q.drop (q.length - 1000) := by
  induction q with
  | nil => rfl
  | cons e rest ih =>
    rw [trimQueue]
    by_cases h : (e :: rest).length > 1000
    · simp only [h, if_true]
      rw [ih]
      have h2 : (e :: rest).length - 1000 = (rest.length - 1000) + 1 := by
        simp only [List.length_cons] at h ⊢
        omega
      rw [h2, List.drop_succ_cons]
    · simp only [h, if_false]
      have h2 : (e :: rest).length - 1000 = 0 := by
        simp only [List.length_cons] at h ⊢
        omega
      rw [h2, List.drop_zero]

theorem keepLast_length (n : Nat) (l : List ProcessEventData) :
    (keepLast n l).length = min n l.length := by
  simp [keepLast]

theorem enqueueEvent_length_le (q : List ProcessEventData) (e : ProcessEventData) :
    (enqueueEvent q e).length ≤ 1000 := by
  rw [enqueueEvent, trimQueue_eq_keepLast, keepLast_length]
  omega

theorem keepLast_append_keepLast (n : Nat) (a b : List ProcessEventData) :
    keepLast n (keepLast n a ++ b) = keepLast n (a ++ b) := by
  unfold keepLast
  rw [List.reverse_append, List.reverse_reverse, List.reverse_append]
  rw [List.take_append_eq_append_take, List.take_append_eq_append_take, List.take_take]
  have : min (n - b.reverse.length) n = n - b.reverse.length := by omega
  rw [this]

theorem keepLast_of_length_le (n : Nat) (l : List ProcessEventData) (h : l.length ≤ n) :
    keepLast n l = l := by
  unfold keepLast
  rw [List.take_of_length_le (by simpa using h), List.reverse_reverse]

theorem foldl_enqueueEvent (evs : List ProcessEventData) :
    ∀ q : List ProcessEventData, q.length ≤ 1000 →
      List.foldl enqueueEvent q evs = keepLast 1000 (q ++ evs) := by
  induction evs with
  | nil =>
    intro q hq
    simp only [List.foldl_nil, List.append_nil]
    exact (keepLast_of_length_le 1000 q hq).symm
  | cons e rest ih =>
    intro q hq
    rw [List.foldl_cons, ih (enqueueEvent q e) (enqueueEvent_length_le q e)]
    rw [enqueueEvent, trimQueue_eq_keepLast, keepLast_append_keepLast]
    rw [List.append_assoc]
    rfl

theorem ffiIndicateStep_fst (s : MonitorState) (r : RawRecord) :
    (ffiIndicateStep s r).1 =
    { s with event_queue := enqueueEvent s.event_queue (mkEvent r),
             event_signaled := s.event_signaled || s.event_available } := by
  obtain ⟨le, mon, tj, q, av, sg, com, cb, ud, sk, cd⟩ := s
  cases av <;> cases cb <;> simp [ffiIndicateStep]

theorem ffiIndicate_fst : ∀ (rs : List RawRecord) (s : MonitorState),
    (ffiIndicate s rs).1 =
    { s with event_queue := List.foldl enqueueEvent s.event_queue (rs.map mkEvent),
             event_signaled := if rs.isEmpty then s.event_signaled
                               else s.event_signaled || s.event_available }
  | [], s => by simp [ffiIndicate]
  | r :: rest, s => by
    show (ffiIndicate (ffiIndicateStep s r).1 rest).1 = _
    rw [ffiIndicate_fst rest, ffiIndicateStep_fst]
    cases hrest : rest.isEmpty <;>
      simp [List.foldl_cons, Bool.or_assoc, hrest]

theorem start_monitoring_fst_cleanup_done (c sp : Bool) (s : MonitorState) :
    (start_monitoring c sp s).1.cleanup_done = s.cleanup_done := by
  obtain ⟨le, mon, tj, q, av, sg, com, cb, ud, sk, cd⟩ := s
  cases mon <;> cases av <;> cases c <;> cases sp <;> rfl

theorem start_monitoring_with_callback_fst_cleanup_done (cb : Option Callback) (ud : Nat)
    (sp : Bool) (s : MonitorState) :
    (start_monitoring_with_callback cb ud sp s).1.cleanup_done = s.cleanup_done := by
  obtain ⟨le, mon, tj, q, av, sg, com, cb0, ud0, sk, cd⟩ := s
  cases mon <;> cases sp <;> rfl

theorem get_next_event_fst_frame (b : Bool) (s : MonitorState) :
    (get_next_event b s).1.cleanup_done = s.cleanup_done ∧
    (get_next_event b s).1.event_available = s.event_available := by
  obtain ⟨le, mon, tj, q, av, sg, com, cb, ud, sk, cd⟩ := s
  cases b <;> cases q <;> exact ⟨rfl, rfl⟩

theorem get_all_events_fst_frame (b : Bool) (m : Int) (s : MonitorState) :
    (get_all_events b m s).1.cleanup_done = s.cleanup_done ∧
    (get_all_events b m s).1.event_available = s.event_available := by
  unfold get_all_events
  split <;> exact ⟨rfl, rfl⟩

theorem wait_for_events_fst_frame (r : WaitResult) (t : Int) (s : MonitorState) :
    (wait_for_events r t s).1.cleanup_done = s.cleanup_done ∧
    (wait_for_events r t s).1.event_available = s.event_available := by
  unfold wait_for_events
  split
  · exact ⟨rfl, rfl⟩
  · cases r <;> exact ⟨rfl, rfl⟩

theorem step_cleanup_done_true (s : MonitorState) (op : Op)
    (h : s.cleanup_done = true) : (step s op).cleanup_done = true := by
  cases op with
  | opInit => exact h
  | opStartPull c sp => rw [step, start_monitoring_fst_cleanup_done]; exact h
  | opStartPush cb ud sp =>
    rw [step, start_monitoring_with_callback_fst_cleanup_done]; exact h
  | opStop => exact h
  | opIndicate rs => rw [step, ffiIndicate_fst]; exact h
  | opGetNext b => rw [step]; rw [(get_next_event_fst_frame b s).1]; exact h
  | opGetAll b m => rw [step]; rw [(get_all_events_fst_frame b m s).1]; exact h
  | opWait r t => rw [step]; rw [(wait_for_events_fst_frame r t s).1]; exact h
  | opCleanup => rw [step]; unfold cleanup_process_monitor; rw [h]; exact h
  | opThreadBody ok => cases ok <;> exact h
  | opThreadExit => exact h

theorem run_cleanup_done_true : ∀ (ops : List Op) (s : MonitorState),
    s.cleanup_done = true → (run ops s).cleanup_done = true
  | [], _, h => h
  | op :: rest, s, h =>
    run_cleanup_done_true rest (step s op) (step_cleanup_done_true s op h)

theorem step_event_available_false (s : MonitorState) (op : Op)
    (hop : isStartPull op = false) (h : s.event_available = false) :
    (step s op).event_available = false := by
  cases op with
  | opInit => exact h
  | opStartPull c sp => exact absurd hop (by simp [isStartPull])
  | opStartPush cb ud sp =>
    obtain ⟨le, mon, tj, q, av, sg, com, cb0, ud0, sk, cd⟩ := s
    cases mon <;> cases sp <;> exact h
  | opStop => exact h
  | opIndicate rs => rw [step, ffiIndicate_fst]; exact h
  | opGetNext b => rw [step]; rw [(get_next_event_fst_frame b s).2]; exact h
  | opGetAll b m => rw [step]; rw [(get_all_events_fst_frame b m s).2]; exact h
  | opWait r t => rw [step]; rw [(wait_for_events_fst_frame r t s).2]; exact h
  | opCleanup =>
    rw [step]; unfold cleanup_process_monitor
    cases hcd : s.cleanup_done <;> simp [hcd, h]
  | opThreadBody ok => cases ok <;> exact h
  | opThreadExit => exact h

theorem run_event_available_false : ∀ (ops : List Op) (s : MonitorState),
    (∀ op ∈ ops, isStartPull op = false) → s.event_available = false →
    (run ops s).event_available = false
  | [], _, _, h => h
  | op :: rest, s, hops, h =>
    run_event_available_false rest (step s op)
      (fun o ho => hops o (List.mem_cons_of_mem op ho))
      (step_event_available_false s op (hops op (List.mem_cons_self op rest)) h)

theorem drainLoop_eq : ∀ (q : List ProcessEventData) (n : Nat),
    drainLoop q n = (q.take n, q.drop n)
  | _, 0 => by simp [drainLoop]
  | [], n + 1 => by simp [drainLoop]
  | e :: rest, n + 1 => by
    rw [drainLoop, drainLoop_eq rest n]
    simp

theorem ffiIndicate_snd_length : ∀ (rs : List RawRecord) (s : MonitorState) (c : Callback),
    s.event_callback = some c → (ffiIndicate s rs).2.length = rs.length
  | [], _, _, _ => rfl
  | r :: rest, s, c, h => by
    show ((ffiIndicateStep s r).2 ++ (ffiIndicate (ffiIndicateStep s r).1 rest).2).length = _
    have hcb : (ffiIndicateStep s r).1.event_callback = some c := by
      rw [ffiIndicateStep_fst]; exact h
    have hstep : (ffiIndicateStep s r).2.length = 1 := by
      obtain ⟨le, mon, tj, q, av, sg, com, cb, ud, sk, cd⟩ := s
      cases cb with
      | none => exact absurd h (by simp)
      | some c0 => cases av <;> rfl
    rw [List.length_append, hstep, ffiIndicate_snd_length rest _ c hcb]
    simp [List.length_cons, Nat.add_comm]

theorem cleanup_of_not_done (s : MonitorState) (h : s.cleanup_done = false) :
    cleanup_process_monitor s =
      { s with cleanup_done := true, monitoring := false, thread_joinable := false,
               sink := false, event_queue := [], event_available := false,
               event_signaled := false, com_initialized := false, last_error := "" } := by
  simp [cleanup_process_monitor, h]

theorem get_next_event_cons (s : MonitorState) (e : ProcessEventData)
    (rest : List ProcessEventData) (h : s.event_queue = e :: rest) :
    get_next_event true s = ({ s with event_queue := rest }, some e, true) := by
  obtain ⟨le, mon, tj, q, av, sg, com, cb, ud, sk, cd⟩ := s
  have h2 : q = e :: rest := h
  subst h2
  rfl

/-- C1: the delivery queue is capacity-bounded at cap 1000 with a drop-oldest
overflow policy: after every enqueue the queue holds at most 1000 records, and
enqueueing 1200 records into an initially empty channel leaves exactly the most
recent 1000 records in their original relative order. -/
theorem C1_queue_cap_drop_oldest :
    (∀ (q : List ProcessEventData) (e : ProcessEventData),
      (enqueueEvent q e).length ≤ 1000) ∧
    (∀ evs : List ProcessEventData, evs.length = 1200 →
      List.foldl enqueueEvent [] evs = evs.drop 200) := by
  constructor
  · exact enqueueEvent_length_le
  · intro evs h
    have h0 := foldl_enqueueEvent evs [] (by simp)
    rw [List.nil_append] at h0
    rw [h0, ← trimQueue_eq_keepLast, trimQueue_eq_drop, h]

theorem C1_queue_cap_drop_oldest_witness :
    sampleEvents.length = 1200 ∧
    List.foldl enqueueEvent [] sampleEvents = sampleEvents.drop 200 :=
  ⟨by unfold sampleEvents; rw [List.length_map, List.length_range],
   C1_queue_cap_drop_oldest.2 sampleEvents
     (by unfold sampleEvents; rw [List.length_map, List.length_range])⟩

/-- C2: for every sequence start, then any delivered events, then stop, then
cleanup, run from the freshly loaded process state, after cleanup returns
is_monitoring is false and the pending event count is 0 — for every start
oracle outcome. -/
theorem C2_cleanup_resets (create spawn : Bool) (evs : List RawRecord) :
    is_monitoring (cleanup_process_monitor ((stop_monitoring ((ffiIndicate
      ((start_monitoring create spawn ((init_process_monitor initialState).1)).1)
      evs).1)).1)) = false ∧
    get_pending_event_count (cleanup_process_monitor ((stop_monitoring ((ffiIndicate
      ((start_monitoring create spawn ((init_process_monitor initialState).1)).1)
      evs).1)).1)) = 0 := by
  have h2 : ((start_monitoring create spawn
      ((init_process_monitor initialState).1)).1).cleanup_done = false := by
    rw [start_monitoring_fst_cleanup_done]; rfl
  have h3 : ((ffiIndicate ((start_monitoring create spawn
      ((init_process_monitor initialState).1)).1) evs).1).cleanup_done = false := by
    rw [ffiIndicate_fst]; exact h2
  have h4 : ((stop_monitoring ((ffiIndicate ((start_monitoring create spawn
      ((init_process_monitor initialState).1)).1) evs).1)).1).cleanup_done = false := h3
  rw [cleanup_of_not_done _ h4]
  exact ⟨rfl, rfl⟩

/-- C3: when the monitor is already running, start_monitoring returns failure,
its error description contains the text already running (the full message is
Process monitor is already running), and the whole remaining state — queue,
thread, callback registration — is left untouched. -/
theorem C3_start_already_running (create spawn : Bool) (s : MonitorState)
    (h : s.monitoring = true) :
    (start_monitoring create spawn s).2 = false ∧
    (start_monitoring create spawn s).1 =
      { s with last_error := "Process monitor is already running" } ∧
    ∃ p, (start_monitoring create spawn s).1.last_error = p ++ "already running" := by
  refine ⟨?_, ?_, ?_⟩
  · simp [start_monitoring, h]
  · simp [start_monitoring, h]
  · refine ⟨"Process monitor is ", ?_⟩
    simp [start_monitoring, h]

theorem C3_start_already_running_witness :
    ((start_monitoring true true ((init_process_monitor initialState).1)).1).monitoring
      = true ∧
    (start_monitoring true false
      ((start_monitoring true true ((init_process_monitor initialState).1)).1)).2
      = false :=
  ⟨rfl, (C3_start_already_running true false _ rfl).1⟩

/-- C4: wait_for_events returns the sentinel -1 when the wake signal was never
created (any trace without a pull-mode start), returns 0 when the timeout
elapses without a signal, and returns the current queue size when the signal
fires. -/
theorem C4_wait_for_events_contract :
    (∀ (ops : List Op) (res : WaitResult) (t : Int),
      (∀ op ∈ ops, isStartPull op = false) →
      (wait_for_events res t (run ops initialState)).2 = -1) ∧
    (∀ (s : MonitorState) (t : Int), s.event_available = true →
      (wait_for_events .timedOut t s).2 = 0) ∧
    (∀ (s : MonitorState) (t : Int), s.event_available = true →
      (wait_for_events .signaled t s).2 = (s.event_queue.length : Int)) := by
  refine ⟨?_, ?_, ?_⟩
  · intro ops res t hops
    have hav : (run ops initialState).event_available = false :=
      run_event_available_false ops initialState hops rfl
    unfold wait_for_events
    rw [hav]
    simp
  · intro s t h
    unfold wait_for_events
    rw [h]
    simp
  · intro s t h
    unfold wait_for_events
    rw [h]
    simp

theorem C4_wait_for_events_contract_witness :
    (wait_for_events WaitResult.timedOut 100
      (run [Op.opStartPush none 0 true, Op.opStop] initialState)).2 = -1 ∧
    (wait_for_events WaitResult.timedOut 100
      { initialState with event_available := true }).2 = 0 ∧
    (wait_for_events WaitResult.signaled 100
      { initialState with event_available := true }).2 = 0 := by
  have hops : ∀ op ∈ [Op.opStartPush none 0 true, Op.opStop], isStartPull op = false := by
    intro op hop
    simp only [List.mem_cons, List.not_mem_nil, or_false] at hop
    rcases hop with rfl | rfl <;> rfl
  exact ⟨C4_wait_for_events_contract.1 [Op.opStartPush none 0 true, Op.opStop]
           WaitResult.timedOut 100 hops,
         C4_wait_for_events_contract.2.1 { initialState with event_available := true } 100 rfl,
         C4_wait_for_events_contract.2.2 { initialState with event_available := true } 100 rfl⟩

/-- C5: get_all_events removes and returns up to max_events records from the
queue in FIFO enqueue order and returns the number retrieved. -/
theorem C5_get_all_events_fifo (s : MonitorState) (m : Int) (h : 0 < m) :
    get_all_events true m s =
      ({ s with event_queue := s.event_queue.drop m.toNat },
       s.event_queue.take m.toNat,
       ((s.event_queue.take m.toNat).length : Int)) := by
  simp [get_all_events, drainLoop_eq, show ¬ m ≤ 0 from by omega]

theorem C5_get_all_events_fifo_witness :
    (0 : Int) < 10 ∧
    (get_all_events true 10
      ((ffiIndicate initialState [recNotepadStart, recNotepadStop]).1)).2.1 =
      [mkEvent recNotepadStart, mkEvent recNotepadStop] ∧
    (get_all_events true 10
      ((ffiIndicate initialState [recNotepadStart, recNotepadStop]).1)).2.2 = 2 ∧
    (mkEvent recNotepadStart).event_type = "start" ∧
    (mkEvent recNotepadStart).process_id = 4321 ∧
    (mkEvent recNotepadStop).event_type = "stop" ∧
    (mkEvent recNotepadStop).process_id = 4321 := by
  have h := C5_get_all_events_fifo
    ((ffiIndicate initialState [recNotepadStart, recNotepadStop]).1) 10 (by norm_num)
  refine ⟨by norm_num, ?_, ?_, by decide, by decide, by decide, by decide⟩
  · rw [h]; rfl
  · rw [h]; rfl

/-- C6 counterexample: in the FFI variant, start_monitoring_with_callback
performs no null check, so a null callback is accepted: from the freshly loaded
state the call returns success and a monitoring session starts. -/
theorem C6_null_callback_cex :
    (start_monitoring_with_callback none 0 true initialState).2 = true ∧
    is_monitoring ((start_monitoring_with_callback none 0 true initialState).1) = true :=
  ⟨rfl, rfl⟩

/-- C6 (amended): the plugin variant start_monitoring rejects a null callback —
it returns failure, leaves the running flag and registration unchanged and
(when not already running) records the error Callback function cannot be null —
whereas the FFI variant start_monitoring_with_callback performs no null check:
a null callback is accepted and a session starts with no callback registered. -/
theorem C6_null_callback :
    (∀ (s : PMApi.PMState) (ud : Nat),
      (PMApi.start_monitoring none ud s).2 = false ∧
      (PMApi.start_monitoring none ud s).1.monitoring = s.monitoring ∧
      (PMApi.start_monitoring none ud s).1.callback = s.callback ∧
      (s.monitoring = false →
        (PMApi.start_monitoring none ud s).1.last_error =
          "Callback function cannot be null")) ∧
    (∀ (s : MonitorState) (ud : Nat), s.monitoring = false →
      (start_monitoring_with_callback none ud true s).2 = true ∧
      (start_monitoring_with_callback none ud true s).1.monitoring = true ∧
      (start_monitoring_with_callback none ud true s).1.event_callback = none) := by
  constructor
  · intro s ud
    obtain ⟨le, mon, tj, cb, ud0, sk⟩ := s
    cases mon with
    | false => exact ⟨rfl, rfl, rfl, fun _ => rfl⟩
    | true => exact ⟨rfl, rfl, rfl, fun h => Bool.noConfusion h⟩
  · intro s ud h
    obtain ⟨le, mon, tj, q, av, sg, com, cb0, ud0, sk, cd⟩ := s
    have h2 : mon = false := h
    subst h2
    exact ⟨rfl, rfl, rfl⟩

theorem C6_null_callback_witness :
    (PMApi.start_monitoring none 0 PMApi.initState).2 = false ∧
    (PMApi.start_monitoring none 0 PMApi.initState).1.last_error =
      "Callback function cannot be null" ∧
    (start_monitoring_with_callback none 7 true initialState).2 = true :=
  ⟨(C6_null_callback.1 PMApi.initState 0).1,
   (C6_null_callback.1 PMApi.initState 0).2.2.2 rfl,
   (C6_null_callback.2 initialState 7 rfl).1⟩

/-- C7 counterexample: in the plugin variant the callback is invoked without a
guard, so with a callback that throws, the fault escapes the delivery path
(flag true) and the second raw record of the batch is never processed. -/
theorem C7_callback_fault_cex :
    (PMApi.Indicate raisingPMState [recNotepadStart, recNotepadStop]).2 = true ∧
    (PMApi.Indicate raisingPMState [recNotepadStart, recNotepadStop]).1 =
      [mkEvent recNotepadStart] :=
  ⟨rfl, rfl⟩

/-- C7 (amended): in the FFI variant delivery path a callback error is swallowed
by the try/catch — delivery is attempted for every raw record of a batch and the
queue effect is the same whatever the callback does; in the plugin variant the
callback is invoked unguarded, so a record on which it throws makes the fault
unwind out of Indicate and later records of the batch are not processed. -/
theorem C7_callback_fault_handling :
    (∀ (s : MonitorState) (c : Callback) (rs : List RawRecord),
      s.event_callback = some c →
      (ffiIndicate s rs).2.length = rs.length ∧
      (ffiIndicate s rs).1.event_queue =
        List.foldl enqueueEvent s.event_queue (rs.map mkEvent)) ∧
    (∀ (c : Callback) (ud : Nat) (r : RawRecord) (rest : List RawRecord),
      raised c (mkEvent r) ud = true →
      PMApi.IndicateLoop c ud (r :: rest) = ([mkEvent r], true)) := by
  constructor
  · intro s c rs h
    refine ⟨ffiIndicate_snd_length rs s c h, ?_⟩
    rw [ffiIndicate_fst]
  · intro c ud r rest h
    unfold raised at h
    cases hc : c (mkEvent r) ud with
    | ok v => rw [hc] at h; exact Bool.noConfusion h
    | error e => simp only [PMApi.IndicateLoop, hc]

theorem C7_callback_fault_handling_witness :
    (ffiIndicate { initialState with event_callback := some alwaysRaise }
      [recNotepadStart, recNotepadStop]).2.length = 2 ∧
    raised alwaysRaise (mkEvent recNotepadStart) 0 = true ∧
    PMApi.IndicateLoop alwaysRaise 0 [recNotepadStart, recNotepadStop] =
      ([mkEvent recNotepadStart], true) :=
  ⟨(C7_callback_fault_handling.1 { initialState with event_callback := some alwaysRaise }
      alwaysRaise [recNotepadStart, recNotepadStop] rfl).1,
   rfl,
   C7_callback_fault_handling.2 alwaysRaise 0 recNotepadStart [recNotepadStop] rfl⟩

/-- C8: building an event record truncates the raw name to the 512-byte
capacity minus one terminator byte (511 bytes kept) instead of failing; an
event built from an over-long name is still enqueued, and get_next_event
returns true for it with a shortened but non-empty name. -/
theorem C8_name_truncation :
    (∀ r : RawRecord, (mkEvent r).process_name = r.name_bytes.take 511) ∧
    (∀ (s : MonitorState) (r : RawRecord),
      511 < r.name_bytes.length → s.event_queue = [] →
      (get_next_event true ((ffiIndicate s [r]).1)).2.2 = true ∧
      (get_next_event true ((ffiIndicate s [r]).1)).2.1 = some (mkEvent r) ∧
      (mkEvent r).process_name ≠ [] ∧
      (mkEvent r).process_name.length < r.name_bytes.length) := by
  constructor
  · intro r; rfl
  · intro s r hlen hq
    have hqueue : ((ffiIndicate s [r]).1).event_queue = [mkEvent r] := by
      rw [ffiIndicate_fst]
      show List.foldl enqueueEvent s.event_queue [mkEvent r] = _
      rw [hq]
      rfl
    have hnext := get_next_event_cons ((ffiIndicate s [r]).1) (mkEvent r) [] hqueue
    have hname : (mkEvent r).process_name.length = 511 := by
      simp only [mkEvent, List.length_take]
      omega
    refine ⟨?_, ?_, ?_, ?_⟩
    · rw [hnext]
    · rw [hnext]
    · intro hnil
      rw [hnil] at hname
      exact absurd hname (by simp)
    · omega

theorem C8_name_truncation_witness :
    511 < recLongName.name_bytes.length ∧
    (get_next_event true ((ffiIndicate initialState [recLongName]).1)).2.2 = true ∧
    (mkEvent recLongName).process_name ≠ [] ∧
    (mkEvent recLongName).process_name.length = 511 := by
  have hlen : 511 < recLongName.name_bytes.length := by
    unfold recLongName
    rw [List.length_replicate]
    omega
  have h := C8_name_truncation.2 initialState recLongName hlen rfl
  refine ⟨hlen, h.1, h.2.2.1, ?_⟩
  simp only [mkEvent, List.length_take]
  unfold recLongName
  rw [List.length_replicate]
  omega

/-- C9: stop_monitoring only clears the running flag and the callback
registration (callback pointer and user data) and returns success; the queue,
the wake signal (handle and signaled state), the last-error text, the
subscription sink, the thread handle, the COM flag and the cleanup guard are
all left unchanged. -/
theorem C9_stop_frame (s : MonitorState) :
    stop_monitoring s =
      ({ s with monitoring := false, event_callback := none, callback_user_data := 0 },
       true) ∧
    (stop_monitoring s).1.event_queue = s.event_queue ∧
    (stop_monitoring s).1.event_available = s.event_available ∧
    (stop_monitoring s).1.event_signaled = s.event_signaled ∧
    (stop_monitoring s).1.last_error = s.last_error ∧
    (stop_monitoring s).1.sink = s.sink ∧
    (stop_monitoring s).1.thread_joinable = s.thread_joinable ∧
    (stop_monitoring s).1.com_initialized = s.com_initialized ∧
    (stop_monitoring s).1.cleanup_done = s.cleanup_done ∧
    (stop_monitoring s).2 = true ∧
    (stop_monitoring s).1.monitoring = false ∧
    (stop_monitoring s).1.event_callback = none :=
  ⟨rfl, rfl, rfl, rfl, rfl, rfl, rfl, rfl, rfl, rfl, rfl, rfl⟩

/-- C10: the cleanup guard flag is raised by any cleanup call and nothing ever
resets it: once a cleanup has run, every later cleanup — after any further
operations, including new monitoring sessions — returns immediately with the
state unchanged. -/
theorem C10_cleanup_guard_permanent :
    (∀ s : MonitorState, (cleanup_process_monitor s).cleanup_done = true) ∧
    (∀ (s : MonitorState) (ops : List Op), s.cleanup_done = true →
      (run ops s).cleanup_done = true ∧
      cleanup_process_monitor (run ops s) = run ops s) := by
  constructor
  · intro s
    unfold cleanup_process_monitor
    cases h : s.cleanup_done <;> simp [h]
  · intro s ops h
    have hr := run_cleanup_done_true ops s h
    refine ⟨hr, ?_⟩
    unfold cleanup_process_monitor
    simp [hr]

theorem C10_cleanup_guard_permanent_witness :
    (run [Op.opStartPull true true, Op.opStop]
      (cleanup_process_monitor initialState)).cleanup_done = true ∧
    cleanup_process_monitor (run [Op.opStartPull true true, Op.opStop]
      (cleanup_process_monitor initialState)) =
      run [Op.opStartPull true true, Op.opStop] (cleanup_process_monitor initialState) :=
  C10_cleanup_guard_permanent.2 (cleanup_process_monitor initialState)
    [Op.opStartPull true true, Op.opStop] rfl
